import Mathlib

/-!
Verification development for the quant-portfolio data pipelines.

Two programs are embedded:

* `Batch` — the Cloud Run batch pipeline
  (src/data-architecture/cloudrun/xnys-get-top150tickers-marketcap.py):
  fetch market caps under a bounded thread pool with one retry per ticker,
  rank the records with pandas, publish top-N plus a summary to Pub/Sub.

* `Streaming` — the websocket router
  (src/data-architecture/virtual machine/websocket_to_pubsub.py):
  a periodically refreshed exchange→ticker-set membership mapping read by a
  stream callback that routes each message to the first owning exchange.

The embedding is shallow: Python functions become Lean functions, external
effects (the Polygon client, Pub/Sub, BigQuery) become explicit oracles, and
thread scheduling becomes an explicit permutation / event list.
-/

namespace Batch

/-- A Python value as observed by `safe_extract_market_cap`: the ticker-details
response may be a dict, an object with attributes (the Polygon model class),
a number, a string, or None.  Numeric JSON values are modelled as integers
(`int(...)` of a float is not exercised by any claim). -/
inductive PyVal where
  | vNone : PyVal
  | vInt : Int → PyVal
  | vStr : String → PyVal
  | vDict : List (String × PyVal) → PyVal
  | vObj : List (String × PyVal) → PyVal

/-- Python `d.get(key)` on a dict: first binding of the key, if any. -/
def dictGet (fields : List (String × PyVal)) (key : String) : Option PyVal :=
  (fields.find? (fun p => p.1 == key)).map (fun p => p.2)

/-- Python `getattr(v, key)` restricted to the attribute table of an object;
non-objects carry no relevant attributes (`hasattr` is `isSome` of this). -/
def getattrOpt : PyVal → String → Option PyVal
  | .vObj attrs, key => (attrs.find? (fun p => p.1 == key)).map (fun p => p.2)
  | _, _ => none

/-- Python truthiness: None and 0 and "" and {} are falsy, objects are truthy. -/
def truthy : PyVal → Bool
  | .vNone => false
  | .vInt n => n != 0
  | .vStr s => s != ""
  | .vDict fields => !fields.isEmpty
  | .vObj _ => true

/-- Python `a or b`. -/
def pyOr (a b : PyVal) : PyVal := if truthy a then a else b

/-- Python `int(v)`: `none` means the conversion raises (TypeError/ValueError),
which the caller's `except` clause turns into 0. -/
def pyInt : PyVal → Option Int
  | .vInt n => some n
  | .vStr s => s.toInt?
  | _ => none

/-- Python `v is None`. -/
def isNoneV : PyVal → Bool
  | .vNone => true
  | _ => false

/-- Translation of `safe_extract_market_cap(details)` (lines 44-63 of the
batch script).  The outer `try/except Exception: return 0` is modelled by
`Option.getD 0` around the only fallible step, `int(...)`. -/
def safe_extract_market_cap (details : PyVal) : Int :=
  let res : PyVal :=
    match details with
    | .vDict fields => (dictGet fields "results").getD details
    | _ => pyOr ((getattrOpt details "results").getD .vNone) details
  match res with
  | .vDict fields =>
    let mcap0 := pyOr ((dictGet fields "market_cap").getD .vNone)
                      ((dictGet fields "marketCap").getD .vNone)
    let mcap :=
      if isNoneV mcap0 then
        match details with
        | .vDict dfields => (dictGet dfields "market_cap").getD .vNone
        | _ => .vNone
      else mcap0
    if truthy mcap then (pyInt mcap).getD 0 else 0
  | other =>
    match getattrOpt other "market_cap" with
    | some v => (pyInt (pyOr v (.vInt 0))).getD 0
    | none =>
      match getattrOpt other "marketCap" with
      | some v => (pyInt (pyOr v (.vInt 0))).getD 0
      | none => 0

/-- Outcome of one call to `client.get_ticker_details`: a response value,
a `RequestException` (transient), or any other exception. -/
inductive FetchOutcome where
  | ok : PyVal → FetchOutcome
  | transient : FetchOutcome
  | fatal : FetchOutcome

/-- Result of `fetch_market_cap_worker`, instrumented with the number of
`get_ticker_details` calls made and the backoff slept between them, so the
retry policy is observable in the embedding. -/
structure WorkerResult where
  ticker : String
  market_cap : Int
  calls : Nat
  backoff_ms : Nat
deriving DecidableEq, Repr

/-- Translation of `fetch_market_cap_worker` (lines 82-98): a RequestException
on the first call sleeps 500 ms and retries once, any failure of the retry
degrades to 0; a non-RequestException on the first call degrades to 0 with no
retry.  `a1`, `a2` are the outcomes the external client would give to the
first and second call. -/
def fetch_market_cap_worker (ticker : String) (a1 a2 : FetchOutcome) : WorkerResult :=
  match a1 with
  | .ok details => ⟨ticker, safe_extract_market_cap details, 1, 0⟩
  | .transient =>
    match a2 with
    | .ok details => ⟨ticker, safe_extract_market_cap details, 2, 500⟩
    | _ => ⟨ticker, 0, 2, 500⟩
  | .fatal => ⟨ticker, 0, 1, 0⟩

/-- One fetched record, as appended to `results` in `get_market_caps_parallel`. -/
structure MarketCapRecord where
  ticker : String
  market_cap : Int
deriving DecidableEq, Repr

/-- The record each submitted future yields, in submission order; `attempts`
gives the per-ticker failure pattern of the external client. -/
def worker_records (attempts : String → FetchOutcome × FetchOutcome)
    (tickers : List String) : List MarketCapRecord :=
  tickers.map (fun t =>
    let w := fetch_market_cap_worker t (attempts t).1 (attempts t).2
    ⟨w.ticker, w.market_cap⟩)

/-- Translation of `get_market_caps_parallel` (lines 101-112): one future per
ticker, results appended in `as_completed` order.  `completion` is the order
in which the scheduler completes the futures, as a list of submission indices
(a permutation of `range tickers.length` for a real scheduler; theorems take
that as a hypothesis). -/
def get_market_caps_parallel (attempts : String → FetchOutcome × FetchOutcome)
    (tickers : List String) (completion : List Nat) : List MarketCapRecord :=
  completion.filterMap (fun i => (worker_records attempts tickers)[i]?)

/-- Ascending comparison used by the ranking sort. -/
def capLE (a b : MarketCapRecord) : Prop := a.market_cap ≤ b.market_cap

instance : DecidableRel capLE := fun a b =>
  inferInstanceAs (Decidable (a.market_cap ≤ b.market_cap))

instance : IsTotal MarketCapRecord capLE :=
  ⟨fun a b => Int.le_total a.market_cap b.market_cap⟩

instance : IsTrans MarketCapRecord capLE :=
  ⟨fun _ _ _ h1 h2 => le_trans h1 h2⟩

/-- `TOP_N` from the batch script. -/
def TOP_N : Nat := 150

/-- Translation of `df.sort_values(by="market_cap", ascending=False)` (line
166).  For a single key pandas sorts via `nargsort` (pandas/core/sorting.py):
for `ascending=False` it reverses the array and the index, takes the
ascending argsort of the reversed array, and reverses the resulting indexer,
so the two reversals cancel on equal keys and tie arrival order is preserved
(the descending-stability behaviour pinned by pandas GH#6399).  numpy's
argsort is modelled as a stable ascending sort (exact for the small arrays
where numpy runs its insertion sort). -/
def sort_values_desc (records : List MarketCapRecord) : List MarketCapRecord :=
  (List.insertionSort capLE records.reverse).reverse

/-- The ranking step of `process_exchange` (line 166): descending sort then
`.head(n)`. -/
def rank_top (n : Nat) (records : List MarketCapRecord) : List MarketCapRecord :=
  (sort_values_desc records).take n

/-- One message handed to Pub/Sub by `publish_top_rows`: either a per-record
payload `{ticker, market_cap, exchange, timestamp}` or the summary payload
`{exchange, timestamp, top_list}`. -/
inductive PubMessage where
  | record : String → Int → String → String → PubMessage
  | summary : String → String → List (String × Int) → PubMessage
deriving DecidableEq, Repr

/-- Discriminator for the summary message. -/
def PubMessage.isSummary : PubMessage → Bool
  | .summary _ _ _ => true
  | .record _ _ _ _ => false

/-- What `future.result(timeout=30)` does for one publish handle: yields a
message id, times out, or raises. -/
inductive PublishOutcome where
  | ok : String → PublishOutcome
  | timeout : PublishOutcome
  | err : PublishOutcome
deriving DecidableEq, Repr

/-- The per-handle wait bound (`f.result(timeout=30)`, line 150), seconds. -/
def PUBLISH_TIMEOUT_S : Nat := 30

/-- The `try: results.append(f.result(timeout=30)) / except: results.append(None)`
step for one handle. -/
def resolveHandle : PublishOutcome → Option String
  | .ok msgId => some msgId
  | .timeout => none
  | .err => none

/-- The messages handed to `publisher.publish` by `publish_top_rows`, in
submission order: one message per row of the dataframe, then one summary
message (whose exchange field is "" for an empty frame and whose timestamp is
a fresh `now()`). -/
def publish_messages (exchange ts summaryTs : String) (records : List MarketCapRecord) :
    List PubMessage :=
  records.map (fun r => PubMessage.record r.ticker r.market_cap exchange ts)
    ++ [PubMessage.summary (if records.isEmpty then "" else exchange) summaryTs
          (records.map (fun r => (r.ticker, r.market_cap)))]

/-- Translation of `publish_top_rows` (lines 123-155): publish every message,
then wait on every handle in order, recording `None` for a handle that times
out or raises.  `resolve` is the bus's outcome for the i-th handle.  Returns
the published messages and the outcome list. -/
def publish_top_rows (resolve : Nat → PublishOutcome) (exchange ts summaryTs : String)
    (records : List MarketCapRecord) : List PubMessage × List (Option String) :=
  (publish_messages exchange ts summaryTs records,
    (List.range (publish_messages exchange ts summaryTs records).length).map
      (fun i => resolveHandle (resolve i)))

/-- Translation of `process_exchange` (lines 158-175) with the external
collaborators made explicit: fetch in parallel, rank descending, truncate to
`TOP_N`, publish.  (The `pd.to_numeric(...).fillna(0).astype("int64")` step is
the identity here because every worker already yields an integer.)  Returns
(ranked dataframe, published messages, publish outcomes). -/
def process_exchange (attempts : String → FetchOutcome × FetchOutcome)
    (completion : List Nat) (resolve : Nat → PublishOutcome)
    (exchange ts summaryTs : String) (tickers : List String) :
    List MarketCapRecord × List PubMessage × List (Option String) :=
  let data := get_market_caps_parallel attempts tickers completion
  let df := rank_top TOP_N data
  let pub := publish_top_rows resolve exchange ts summaryTs df
  (df, pub.1, pub.2)

end Batch

namespace Streaming

/-- The process-wide `all_tickers_by_exchange` mapping: exchange code → set of
tickers, in dict insertion order. -/
abbrev Membership := List (String × List String)

/-- The keys of `TABLES`, in insertion order. -/
def STREAM_EXCHANGES : List String := ["XNAS", "XNYS", "XASE"]

/-- Translation of the dict comprehension
`{ex: get_tickers_from_bigquery(ex) for ex in TABLES}` over an explicit list
of exchanges; `wh` is the warehouse oracle, whose error is an uncaught
exception of `get_tickers_from_bigquery`.  The comprehension queries the
exchanges in order and a raised exception aborts the whole build before any
assignment of the global happens. -/
def build_tickers_list (wh : String → Except Unit (List String)) :
    List String → Except Unit Membership
  | [] => .ok []
  | ex :: rest =>
    match wh ex with
    | .error e => .error e
    | .ok ts =>
      match build_tickers_list wh rest with
      | .error e => .error e
      | .ok m => .ok ((ex, ts) :: m)

/-- The full rebuild of `all_tickers_by_exchange` (line 96). -/
def build_all_tickers (wh : String → Except Unit (List String)) : Except Unit Membership :=
  build_tickers_list wh STREAM_EXCHANGES

/-- Translation of the body of `refresh_tickers_every` (lines 88-98), run over
a finite schedule of refresh ticks (one warehouse oracle per tick at which the
staleness gate fires).  The loop body has no exception handler, so a failed
warehouse query propagates out of the loop and the daemon thread dies; the
global keeps the value installed by the last successful tick.  Returns the
mapping readers see afterwards, whether the thread is still alive, and how
many ticks completed. -/
def refresh_loop (ticks : List (String → Except Unit (List String)))
    (installed : Membership) : Membership × Bool × Nat :=
  match ticks with
  | [] => (installed, true, 0)
  | wh :: rest =>
    match build_all_tickers wh with
    | .error _ => (installed, false, 0)
    | .ok m =>
      let r := refresh_loop rest m
      (r.1, r.2.1, r.2.2 + 1)

/-- One incoming `WebSocketMessage`, restricted to the attributes `handle_msg`
reads.  `symbol` is `getattr(m, "symbol", None)`; the empty string models a
present-but-empty symbol. -/
structure StreamMessage where
  symbol : Option String
  close : Option Int
  volume : Option Int
  start_timestamp : Option Int
deriving DecidableEq, Repr

/-- The routed payload built at lines 68-76 (the `raw` field, a dump of the
whole message, is omitted: no claim mentions it). -/
structure RoutedPayload where
  exchange : String
  symbol : String
  price : Option Int
  volume : Option Int
  timestamp : Option Int
deriving DecidableEq, Repr

def make_payload (exchange symbol : String) (m : StreamMessage) : RoutedPayload :=
  ⟨exchange, symbol, m.close, m.volume, m.start_timestamp⟩

/-- The scan `for exchange, tickers in all_tickers_by_exchange.items(): if
symbol in tickers: ... break` — the first exchange in iteration order whose
set contains the symbol. -/
def first_match (mapping : Membership) (symbol : String) : Option String :=
  match mapping with
  | [] => none
  | (ex, ts) :: rest => if symbol ∈ ts then some ex else first_match rest symbol

/-- Processing of one message inside `handle_msg`'s loop (lines 59-82):
a missing or empty symbol is skipped, otherwise the message is published to
the first owning exchange's topic and the scan breaks; no match publishes
nothing.  Returns the list of (exchange, payload) publishes this message
causes. -/
def handle_one (mapping : Membership) (m : StreamMessage) : List (String × RoutedPayload) :=
  match m.symbol with
  | none => []
  | some s =>
    if s = "" then []
    else
      match first_match mapping s with
      | none => []
      | some ex => [(ex, make_payload ex s m)]

/-- Translation of `handle_msg(msgs)` (lines 56-85): the per-message body is
wrapped in `try/except ... continue`, so every message of the batch is
processed and the publishes concatenate. -/
def handle_msg (mapping : Membership) (msgs : List StreamMessage) :
    List (String × RoutedPayload) :=
  msgs.flatMap (handle_one mapping)

/-- State of the membership store as the refresh loop's tick builds a new dict
(`building`, private to the refresh thread) and then installs it by rebinding
the global (`installed`, the only value the stream callback can read). -/
structure StoreState where
  installed : Membership
  building : Membership
deriving DecidableEq, Repr

/-- Interleaved events of the refresh thread and the stream callback:
`beginBuild` starts a fresh dict, `buildEntry` adds one exchange's freshly
queried set to the private dict, `swap` is the atomic rebinding of the global
(a single STORE_GLOBAL under the GIL), `read` is the callback reading the
global once for one routing decision. -/
inductive StoreEvent where
  | beginBuild : StoreEvent
  | buildEntry : String → List String → StoreEvent
  | swap : StoreEvent
  | read : StoreEvent

def store_step (s : StoreState) : StoreEvent → StoreState
  | .beginBuild => ⟨s.installed, []⟩
  | .buildEntry ex ts => ⟨s.installed, s.building ++ [(ex, ts)]⟩
  | .swap => ⟨s.building, s.building⟩
  | .read => s

/-- The mapping each `read` event observes, over an event interleaving. -/
def store_reads (s : StoreState) : List StoreEvent → List Membership
  | [] => []
  | .read :: rest => s.installed :: store_reads s rest
  | .beginBuild :: rest => store_reads (store_step s .beginBuild) rest
  | .buildEntry ex ts :: rest => store_reads (store_step s (.buildEntry ex ts)) rest
  | .swap :: rest => store_reads (store_step s .swap) rest

/-- The fully-built generations installed over an event interleaving: the
value the global is rebound to at each `swap`. -/
def store_generations (s : StoreState) : List StoreEvent → List Membership
  | [] => []
  | .read :: rest => store_generations s rest
  | .beginBuild :: rest => store_generations (store_step s .beginBuild) rest
  | .buildEntry ex ts :: rest => store_generations (store_step s (.buildEntry ex ts)) rest
  | .swap :: rest => s.building :: store_generations (store_step s .swap) rest

end Streaming

/-! ## Helper lemmas -/

/-- Reading a list back at the indices `0, …, length-1` reproduces the list. -/
theorem filterMap_getElem_range {α : Type} (l : List α) :
    (List.range l.length).filterMap (fun i => l[i]?) = l := by
  induction l with
  | nil => rfl
  | cons a as ih =>
    rw [List.length_cons, List.range_succ_eq_map, List.filterMap_cons]
    simp only [List.getElem?_cons_zero, List.filterMap_map, Function.comp_def,
      List.getElem?_cons_succ]
    exact congrArg (a :: ·) ih

/-- The worker always reports the ticker it was given, whatever the failures. -/
theorem worker_ticker (t : String) (a1 a2 : Batch.FetchOutcome) :
    (Batch.fetch_market_cap_worker t a1 a2).ticker = t := by
  cases a1 <;> cases a2 <;> rfl

/-- The per-future records carry exactly the input tickers, in order. -/
theorem worker_records_tickers (attempts : String → Batch.FetchOutcome × Batch.FetchOutcome)
    (tickers : List String) :
    (Batch.worker_records attempts tickers).map Batch.MarketCapRecord.ticker = tickers := by
  simp [Batch.worker_records, List.map_map, Function.comp_def, worker_ticker]

/-! ## Claims -/

/-- Claim C2: for every finite ticker list, every per-ticker failure pattern
and every completion order of the pool, `get_market_caps_parallel` returns a
permutation of the per-ticker records — exactly `tickers.length` of them, the
multiset of reported tickers is exactly the input multiset (no omissions, no
extras), and distinct inputs give records with no duplicated ticker. -/
theorem fetcher_complete (attempts : String → Batch.FetchOutcome × Batch.FetchOutcome)
    (tickers : List String) (completion : List Nat)
    (hperm : completion.Perm (List.range tickers.length)) :
    (Batch.get_market_caps_parallel attempts tickers completion).Perm
        (Batch.worker_records attempts tickers) ∧
    (Batch.get_market_caps_parallel attempts tickers completion).length = tickers.length ∧
    ((Batch.get_market_caps_parallel attempts tickers completion).map
        Batch.MarketCapRecord.ticker).Perm tickers ∧
    (tickers.Nodup →
      ((Batch.get_market_caps_parallel attempts tickers completion).map
          Batch.MarketCapRecord.ticker).Nodup) := by
  have hlen : (Batch.worker_records attempts tickers).length = tickers.length := by
    simp [Batch.worker_records]
  have h1 : (Batch.get_market_caps_parallel attempts tickers completion).Perm
      (Batch.worker_records attempts tickers) := by
    have h2 := hperm.filterMap (fun i => (Batch.worker_records attempts tickers)[i]?)
    rw [← hlen] at h2
    rw [filterMap_getElem_range] at h2
    exact h2
  have h3 : ((Batch.get_market_caps_parallel attempts tickers completion).map
      Batch.MarketCapRecord.ticker).Perm tickers := by
    have := h1.map Batch.MarketCapRecord.ticker
    rwa [worker_records_tickers] at this
  exact ⟨h1, h1.length_eq.trans hlen, h3, fun hnd => h3.nodup_iff.mpr hnd⟩

/-- Witness for C2: two tickers, both lookups failing, completing in reverse
submission order. -/
theorem fetcher_complete_witness :
    ([1, 0] : List Nat).Perm (List.range (["A", "B"] : List String).length) ∧
    ((Batch.get_market_caps_parallel (fun _ => (.fatal, .fatal)) ["A", "B"] [1, 0]).Perm
        (Batch.worker_records (fun _ => (.fatal, .fatal)) ["A", "B"]) ∧
      (Batch.get_market_caps_parallel (fun _ => (.fatal, .fatal)) ["A", "B"] [1, 0]).length
        = (["A", "B"] : List String).length ∧
      ((Batch.get_market_caps_parallel (fun _ => (.fatal, .fatal)) ["A", "B"] [1, 0]).map
          Batch.MarketCapRecord.ticker).Perm ["A", "B"] ∧
      ((["A", "B"] : List String).Nodup →
        ((Batch.get_market_caps_parallel (fun _ => (.fatal, .fatal)) ["A", "B"] [1, 0]).map
            Batch.MarketCapRecord.ticker).Nodup)) :=
  ⟨by decide, fetcher_complete (fun _ => (.fatal, .fatal)) ["A", "B"] [1, 0] (by decide)⟩

/-- Claim C6: a transient first failure makes exactly two upstream calls with
a 500 ms backoff between them; if the retry also fails (transient or not) the
record degrades to {ticker, 0}; a non-transient first failure makes exactly
one call and degrades to {ticker, 0} immediately; and for every failure
pattern the worker returns a record for its ticker (nothing propagates). -/
theorem worker_retry_policy (t : String) (a1 a2 : Batch.FetchOutcome) :
    (Batch.fetch_market_cap_worker t .transient a2).calls = 2 ∧
    (Batch.fetch_market_cap_worker t .transient a2).backoff_ms = 500 ∧
    ((a2 = .transient ∨ a2 = .fatal) →
      Batch.fetch_market_cap_worker t .transient a2 = ⟨t, 0, 2, 500⟩) ∧
    Batch.fetch_market_cap_worker t .fatal a2 = ⟨t, 0, 1, 0⟩ ∧
    (Batch.fetch_market_cap_worker t a1 a2).ticker = t := by
  refine ⟨?_, ?_, ?_, rfl, worker_ticker t a1 a2⟩
  · cases a2 <;> rfl
  · cases a2 <;> rfl
  · rintro (rfl | rfl) <;> rfl

/-- Witness for C6: ticker "ZZZ" failing twice (transient, then a failed
retry) yields the degraded record. -/
theorem worker_retry_policy_witness :
    (Batch.FetchOutcome.fatal = Batch.FetchOutcome.transient ∨
      Batch.FetchOutcome.fatal = Batch.FetchOutcome.fatal) ∧
    Batch.fetch_market_cap_worker "ZZZ" .transient .fatal = ⟨"ZZZ", 0, 2, 500⟩ :=
  ⟨Or.inr rfl, (worker_retry_policy "ZZZ" .fatal .fatal).2.2.1 (Or.inr rfl)⟩

/-- Claim C9: for every input record set and bound n the ranked snapshot is
sorted descending by market_cap, its length is min(n, number of input
records), and the configured default bound `TOP_N` is 150. -/
theorem snapshot_sorted_bounded (n : Nat) (records : List Batch.MarketCapRecord) :
    List.Sorted (fun a b : Batch.MarketCapRecord => b.market_cap ≤ a.market_cap)
      (Batch.rank_top n records) ∧
    (Batch.rank_top n records).length = min n records.length ∧
    Batch.TOP_N = 150 := by
  refine ⟨?_, ?_, rfl⟩
  · exact List.Pairwise.take
      (List.pairwise_reverse.mpr (List.sorted_insertionSort Batch.capLE records.reverse))
  · simp [Batch.rank_top, Batch.sort_values_desc,
      (List.perm_insertionSort Batch.capLE records.reverse).length_eq]

/-- Claim C7: for a snapshot of k records the publisher emits k+1 messages of
which exactly one is the summary, waits on each handle with the 30-second
bound, returns exactly k+1 outcomes, records null for a handle that times out
or raises, and each outcome depends only on its own handle. -/
theorem publisher_best_effort (resolve resolve2 : Nat → Batch.PublishOutcome)
    (exchange ts sts : String) (records : List Batch.MarketCapRecord) (i : Nat) :
    ((Batch.publish_top_rows resolve exchange ts sts records).1).length
      = records.length + 1 ∧
    ((Batch.publish_top_rows resolve exchange ts sts records).1).countP
      Batch.PubMessage.isSummary = 1 ∧
    ((Batch.publish_top_rows resolve exchange ts sts records).2).length
      = records.length + 1 ∧
    (i < records.length + 1 → (resolve i = .timeout ∨ resolve i = .err) →
      ((Batch.publish_top_rows resolve exchange ts sts records).2)[i]? = some none) ∧
    (i < records.length + 1 → resolve i = resolve2 i →
      ((Batch.publish_top_rows resolve exchange ts sts records).2)[i]?
        = ((Batch.publish_top_rows resolve2 exchange ts sts records).2)[i]?) ∧
    Batch.PUBLISH_TIMEOUT_S = 30 := by
  have hlen : (Batch.publish_messages exchange ts sts records).length
      = records.length + 1 := by
    simp [Batch.publish_messages]
  have hidx : ∀ (res : Nat → Batch.PublishOutcome), i < records.length + 1 →
      ((Batch.publish_top_rows res exchange ts sts records).2)[i]?
        = some (Batch.resolveHandle (res i)) := by
    intro res hi
    show ((List.range (Batch.publish_messages exchange ts sts records).length).map
      (fun j => Batch.resolveHandle (res j)))[i]? = _
    rw [List.getElem?_map, List.getElem?_range (by rw [hlen]; exact hi)]
    rfl
  refine ⟨hlen, ?_, ?_, ?_, ?_, rfl⟩
  · simp [Batch.publish_top_rows, Batch.publish_messages, List.countP_append,
      List.countP_map, Function.comp_def, Batch.PubMessage.isSummary,
      List.countP_cons, List.countP_nil]
  · show ((List.range (Batch.publish_messages exchange ts sts records).length).map
      (fun j => Batch.resolveHandle (resolve j))).length = records.length + 1
    simp [hlen]
  · intro hi h
    rw [hidx resolve hi]
    rcases h with h | h <;> rw [h] <;> rfl
  · intro hi h
    rw [hidx resolve hi, hidx resolve2 hi, h]

/-- Witness for C7: one record, the summary handle (index 1) times out, the
record handle succeeds; the summary outcome is recorded as null. -/
theorem publisher_best_effort_witness :
    (1 < ([(⟨"A", 7⟩ : Batch.MarketCapRecord)] : List Batch.MarketCapRecord).length + 1) ∧
    ((fun j => if j = 1 then Batch.PublishOutcome.timeout else Batch.PublishOutcome.ok "id") 1
        = Batch.PublishOutcome.timeout ∨
      (fun j => if j = 1 then Batch.PublishOutcome.timeout else Batch.PublishOutcome.ok "id") 1
        = Batch.PublishOutcome.err) ∧
    ((Batch.publish_top_rows
        (fun j => if j = 1 then Batch.PublishOutcome.timeout else Batch.PublishOutcome.ok "id")
        "XNYS" "t0" "t1" [⟨"A", 7⟩]).2)[1]? = some none :=
  ⟨by decide, Or.inl rfl,
    (publisher_best_effort
        (fun j => if j = 1 then Batch.PublishOutcome.timeout else Batch.PublishOutcome.ok "id")
        (fun j => if j = 1 then Batch.PublishOutcome.timeout else Batch.PublishOutcome.ok "id")
        "XNYS" "t0" "t1" [⟨"A", 7⟩] 1).2.2.2.1 (by decide) (Or.inl rfl)⟩

/-- A record drawn from the ranked snapshot was produced by some worker. -/
theorem mem_rank_top (r : Batch.MarketCapRecord) (n : Nat)
    (l : List Batch.MarketCapRecord) (hr : r ∈ Batch.rank_top n l) : r ∈ l := by
  have h1 : r ∈ Batch.sort_values_desc l := List.take_subset n _ hr
  rw [Batch.sort_values_desc, List.mem_reverse] at h1
  exact List.mem_reverse.mp ((List.perm_insertionSort Batch.capLE l.reverse).mem_iff.mp h1)

/-- A record returned by the parallel fetcher is one of the worker records. -/
theorem mem_parallel (attempts : String → Batch.FetchOutcome × Batch.FetchOutcome)
    (tickers : List String) (completion : List Nat) (r : Batch.MarketCapRecord)
    (hr : r ∈ Batch.get_market_caps_parallel attempts tickers completion) :
    r ∈ Batch.worker_records attempts tickers := by
  rw [Batch.get_market_caps_parallel, List.mem_filterMap] at hr
  obtain ⟨i, _, hi⟩ := hr
  exact List.getElem?_mem hi

/-- The worker's value is 0 or the extraction of one of its responses. -/
theorem worker_mcap_cases (t : String) (a1 a2 : Batch.FetchOutcome) :
    (Batch.fetch_market_cap_worker t a1 a2).market_cap = 0 ∨
    (∃ d, a1 = .ok d ∧ (Batch.fetch_market_cap_worker t a1 a2).market_cap
      = Batch.safe_extract_market_cap d) ∨
    (∃ d, a2 = .ok d ∧ (Batch.fetch_market_cap_worker t a1 a2).market_cap
      = Batch.safe_extract_market_cap d) := by
  cases a1 with
  | ok d => exact Or.inr (Or.inl ⟨d, rfl, rfl⟩)
  | transient =>
    cases a2 with
    | ok d => exact Or.inr (Or.inr ⟨d, rfl, rfl⟩)
    | transient => exact Or.inl rfl
    | fatal => exact Or.inl rfl
  | fatal => exact Or.inl rfl

/-- Claim C8, counterexample: the pipeline does not guarantee a non-negative
market_cap for every shape of the upstream response.  A well-formed response
whose market_cap field is the integer -5 flows through extraction, ranking
and publishing unchanged, so the published per-symbol record carries -5. -/
theorem published_negative_cex :
    (Batch.process_exchange
        (fun _ => (.ok (.vDict [("market_cap", .vInt (-5))]), .fatal))
        [0] (fun _ => .ok "id") "XNYS" "t0" "t1" ["NEG"]).2.1
      = [.record "NEG" (-5) "XNYS" "t0", .summary "XNYS" "t1" [("NEG", -5)]] ∧
    ((-5 : Int) < 0) := by
  constructor <;> decide

/-- Claim C8, amended: a failed or unparseable lookup yields 0 and no error
value reaches the published message — every published per-symbol value is the
safe extraction of an upstream response or 0 — and the published values are
non-negative provided every response the upstream actually returned extracts
to a non-negative value (the code does not clamp a negative upstream value). -/
theorem published_nonneg_amended
    (attempts : String → Batch.FetchOutcome × Batch.FetchOutcome)
    (completion : List Nat) (resolve : Nat → Batch.PublishOutcome)
    (exchange ts sts : String) (tickers : List String)
    (hnn : ∀ t d, ((attempts t).1 = .ok d ∨ (attempts t).2 = .ok d) →
      0 ≤ Batch.safe_extract_market_cap d) :
    ∀ tick mc ex tstamp,
      Batch.PubMessage.record tick mc ex tstamp ∈
        (Batch.process_exchange attempts completion resolve exchange ts sts tickers).2.1 →
      0 ≤ mc := by
  intro tick mc ex tstamp hmem
  have hmem2 : Batch.PubMessage.record tick mc ex tstamp ∈
      Batch.publish_messages exchange ts sts
        (Batch.rank_top Batch.TOP_N
          (Batch.get_market_caps_parallel attempts tickers completion)) := hmem
  rw [Batch.publish_messages, List.mem_append] at hmem2
  rcases hmem2 with hmap | hsum
  · rw [List.mem_map] at hmap
    obtain ⟨r, hr, heq⟩ := hmap
    have hmc : mc = r.market_cap := by
      injection heq with h1 h2 h3 h4
      exact h2.symm
    have hr2 := mem_parallel attempts tickers completion r
      (mem_rank_top r Batch.TOP_N _ hr)
    rw [Batch.worker_records, List.mem_map] at hr2
    obtain ⟨t, ht, hrt⟩ := hr2
    have hmc2 : r.market_cap
        = (Batch.fetch_market_cap_worker t (attempts t).1 (attempts t).2).market_cap := by
      rw [← hrt]
    rw [hmc, hmc2]
    rcases worker_mcap_cases t (attempts t).1 (attempts t).2 with h0 | ⟨d, hd, heq2⟩ | ⟨d, hd, heq2⟩
    · rw [h0]
    · rw [heq2]
      exact hnn t d (Or.inl hd)
    · rw [heq2]
      exact hnn t d (Or.inr hd)
  · rw [List.mem_singleton] at hsum
    exact absurd hsum (by simp)

/-- Witness for C8's amended theorem: every lookup fails outright, so every
published per-symbol value is the degraded 0. -/
theorem published_nonneg_amended_witness :
    (∀ t d, (((fun _ : String => (Batch.FetchOutcome.fatal, Batch.FetchOutcome.fatal)) t).1
          = Batch.FetchOutcome.ok d ∨
        ((fun _ : String => (Batch.FetchOutcome.fatal, Batch.FetchOutcome.fatal)) t).2
          = Batch.FetchOutcome.ok d) →
      0 ≤ Batch.safe_extract_market_cap d) ∧
    (∀ tick mc ex tstamp,
      Batch.PubMessage.record tick mc ex tstamp ∈
        (Batch.process_exchange (fun _ => (Batch.FetchOutcome.fatal, Batch.FetchOutcome.fatal))
          [0] (fun _ => .ok "id") "XNYS" "t0" "t1" ["A"]).2.1 →
      0 ≤ mc) :=
  ⟨fun t d h => by rcases h with h | h <;> simp at h,
    published_nonneg_amended (fun _ => (Batch.FetchOutcome.fatal, Batch.FetchOutcome.fatal))
      [0] (fun _ => .ok "id") "XNYS" "t0" "t1" ["A"]
      (fun t d h => by rcases h with h | h <;> simp at h)⟩

/-- Claim C3 (code bug): `refresh_tickers_every` has no exception handler, so
a warehouse failure on a tick is NOT skipped.  Evaluated at the failing input
— first tick's query raises, second tick's would succeed — the loop dies on
the first tick: the previously installed mapping does remain the one readers
see, but the thread is no longer alive and the succeeding second tick is
never attempted (completed-tick count 0), contradicting "the refresh loop
keeps running and attempts subsequent ticks". -/
theorem refresh_failure_terminates_loop :
    Streaming.refresh_loop
        [fun _ => .error (), fun _ => .ok ["T"]] [("XNAS", ["OLD"])]
      = ([("XNAS", ["OLD"])], false, 0) ∧
    Streaming.build_all_tickers (fun _ => .ok ["T"])
      = .ok [("XNAS", ["T"]), ("XNYS", ["T"]), ("XASE", ["T"])] := by
  constructor <;> rfl

/-- Claim C4: under any interleaving of the refresh thread's build steps and
installs with the callback's reads, every read observes a mapping that is
either the initially installed generation or one installed by a completed
swap — never the partially-built private dict and never a mix of two
generations (each routing decision consumes the single mapping its one read
returned). -/
theorem store_reads_are_generations (s : Streaming.StoreState)
    (evs : List Streaming.StoreEvent) (g : Streaming.Membership)
    (hg : g ∈ Streaming.store_reads s evs) :
    g ∈ s.installed :: Streaming.store_generations s evs := by
  induction evs generalizing s with
  | nil => simp [Streaming.store_reads] at hg
  | cons e rest ih =>
    cases e with
    | read =>
      rcases List.mem_cons.mp hg with rfl | hg2
      · exact List.mem_cons_self _ _
      · exact ih s hg2
    | beginBuild => exact ih (Streaming.store_step s .beginBuild) hg
    | buildEntry ex ts => exact ih (Streaming.store_step s (.buildEntry ex ts)) hg
    | swap =>
      have h := ih (Streaming.store_step s .swap) hg
      rcases List.mem_cons.mp h with rfl | h2
      · exact List.mem_cons_of_mem _ (List.mem_cons_self _ _)
      · exact List.mem_cons_of_mem _ (List.mem_cons_of_mem _ h2)

/-- Witness for C4: a read interleaved before, during and after a rebuild
observes only the old or the new generation, here the old one. -/
theorem store_reads_are_generations_witness :
    ([("XNAS", ["A"])] : Streaming.Membership) ∈
      Streaming.store_reads ⟨[("XNAS", ["A"])], []⟩
        [.read, .beginBuild, .buildEntry "XNAS" ["B"], .read, .swap, .read] ∧
    ([("XNAS", ["A"])] : Streaming.Membership) ∈
      (⟨[("XNAS", ["A"])], []⟩ : Streaming.StoreState).installed ::
        Streaming.store_generations ⟨[("XNAS", ["A"])], []⟩
          [.read, .beginBuild, .buildEntry "XNAS" ["B"], .read, .swap, .read] :=
  ⟨by decide,
    store_reads_are_generations ⟨[("XNAS", ["A"])], []⟩
      [.read, .beginBuild, .buildEntry "XNAS" ["B"], .read, .swap, .read]
      [("XNAS", ["A"])] (by decide)⟩

/-- The scan finds nothing when no exchange's set holds the symbol. -/
theorem first_match_none (s : String) (mapping : Streaming.Membership)
    (h : ∀ p ∈ mapping, s ∉ p.2) : Streaming.first_match mapping s = none := by
  induction mapping with
  | nil => rfl
  | cons q rest ih =>
    obtain ⟨ex, ts⟩ := q
    show (if s ∈ ts then some ex else Streaming.first_match rest s) = none
    rw [if_neg (h (ex, ts) (List.mem_cons_self _ _))]
    exact ih fun p hp => h p (List.mem_cons_of_mem _ hp)

/-- The scan returns the first exchange in iteration order owning the symbol. -/
theorem first_match_append (s : String) (pre : Streaming.Membership) (ex : String)
    (ts : List String) (post : Streaming.Membership)
    (hpre : ∀ p ∈ pre, s ∉ p.2) (hts : s ∈ ts) :
    Streaming.first_match (pre ++ (ex, ts) :: post) s = some ex := by
  induction pre with
  | nil =>
    show (if s ∈ ts then some ex else Streaming.first_match post s) = some ex
    rw [if_pos hts]
  | cons q rest ih =>
    obtain ⟨qx, qs⟩ := q
    show (if s ∈ qs then some qx else Streaming.first_match (rest ++ (ex, ts) :: post) s)
      = some ex
    rw [if_neg (hpre (qx, qs) (List.mem_cons_self _ _))]
    exact ih fun p hp => hpre p (List.mem_cons_of_mem _ hp)

/-- Claim C5: a message whose symbol no exchange claims is dropped silently
(no publish), and a message whose symbol some exchange claims is published to
exactly one topic — that of the first exchange in iteration order whose
membership set contains the symbol. -/
theorem router_first_match (mapping : Streaming.Membership)
    (m : Streaming.StreamMessage) (s : String)
    (hs : m.symbol = some s) (hne : s ≠ "") :
    ((∀ p ∈ mapping, s ∉ p.2) → Streaming.handle_one mapping m = []) ∧
    (∀ pre ex ts post, mapping = pre ++ (ex, ts) :: post →
      (∀ p ∈ pre, s ∉ p.2) → s ∈ ts →
      Streaming.handle_one mapping m = [(ex, Streaming.make_payload ex s m)]) := by
  constructor
  · intro hall
    simp [Streaming.handle_one, hs, hne, first_match_none s mapping hall]
  · rintro pre ex ts post rfl hpre hts
    simp [Streaming.handle_one, hs, hne, first_match_append s pre ex ts post hpre hts]

/-- Witness for C5: symbol AAPL is in both XNAS's and XNYS's sets; the
message goes to XNAS only (first match) and an unknown symbol goes nowhere. -/
theorem router_first_match_witness :
    ((⟨some "AAPL", some 10, some 5, some 0⟩ : Streaming.StreamMessage).symbol
        = some "AAPL") ∧
    ("AAPL" ≠ "") ∧
    (((∀ p ∈ ([("XNAS", ["AAPL"]), ("XNYS", ["AAPL"])] : Streaming.Membership),
          "AAPL" ∉ p.2) →
        Streaming.handle_one [("XNAS", ["AAPL"]), ("XNYS", ["AAPL"])]
          ⟨some "AAPL", some 10, some 5, some 0⟩ = []) ∧
      (∀ pre ex ts post,
        ([("XNAS", ["AAPL"]), ("XNYS", ["AAPL"])] : Streaming.Membership)
          = pre ++ (ex, ts) :: post →
        (∀ p ∈ pre, "AAPL" ∉ p.2) → "AAPL" ∈ ts →
        Streaming.handle_one [("XNAS", ["AAPL"]), ("XNYS", ["AAPL"])]
          ⟨some "AAPL", some 10, some 5, some 0⟩
          = [(ex, Streaming.make_payload ex "AAPL" ⟨some "AAPL", some 10, some 5, some 0⟩)])) :=
  ⟨rfl, by decide,
    router_first_match [("XNAS", ["AAPL"]), ("XNYS", ["AAPL"])]
      ⟨some "AAPL", some 10, some 5, some 0⟩ "AAPL" rfl (by decide)⟩

/-- Claim C10: a feed message whose symbol attribute is missing (None) or the
empty string is skipped silently — it causes no publish — and the rest of the
batch is processed exactly as if the message were absent. -/
theorem router_skips_empty_symbol (mapping : Streaming.Membership)
    (pre post : List Streaming.StreamMessage) (m : Streaming.StreamMessage)
    (hm : m.symbol = none ∨ m.symbol = some "") :
    Streaming.handle_one mapping m = [] ∧
    Streaming.handle_msg mapping (pre ++ m :: post)
      = Streaming.handle_msg mapping pre ++ Streaming.handle_msg mapping post := by
  have h1 : Streaming.handle_one mapping m = [] := by
    rcases hm with h | h <;> simp [Streaming.handle_one, h]
  refine ⟨h1, ?_⟩
  simp [Streaming.handle_msg, List.flatMap_append, List.flatMap_cons, h1]

/-- Witness for C10: a symbol-less message between two routable ones
contributes nothing and does not disturb them. -/
theorem router_skips_empty_symbol_witness :
    ((⟨none, some 3, none, none⟩ : Streaming.StreamMessage).symbol = none ∨
      (⟨none, some 3, none, none⟩ : Streaming.StreamMessage).symbol = some "") ∧
    (Streaming.handle_one [("XNAS", ["AAPL"])] ⟨none, some 3, none, none⟩ = [] ∧
      Streaming.handle_msg [("XNAS", ["AAPL"])]
          ([⟨some "AAPL", some 1, none, none⟩] ++
            (⟨none, some 3, none, none⟩ : Streaming.StreamMessage) ::
              [⟨some "AAPL", some 2, none, none⟩])
        = Streaming.handle_msg [("XNAS", ["AAPL"])] [⟨some "AAPL", some 1, none, none⟩] ++
          Streaming.handle_msg [("XNAS", ["AAPL"])] [⟨some "AAPL", some 2, none, none⟩]) :=
  ⟨Or.inl rfl,
    router_skips_empty_symbol [("XNAS", ["AAPL"])]
      [⟨some "AAPL", some 1, none, none⟩] [⟨some "AAPL", some 2, none, none⟩]
      ⟨none, some 3, none, none⟩ (Or.inl rfl)⟩
